import Mathlib

/-!
Shallow embedding of `pkg/spoke/addon/lease_controller.go` from the
open-cluster-management registration repository.

The controller watches addon leases on a managed cluster and derives an
availability condition on the corresponding `ManagedClusterAddOn` resource.
Time is modelled in whole seconds as `Int`; the Go code compares
`time.Time` values at nanosecond granularity, which is order-isomorphic to
this model for the second-granularity constants involved.
-/

set_option autoImplicit false

namespace AddOnLease

/-- Timestamps in seconds. -/
abbrev Time := Int

/-- Tri-state condition status, mirroring `metav1.ConditionStatus`. -/
inductive ConditionStatus where
  | conditionTrue
  | conditionFalse
  | conditionUnknown
  deriving DecidableEq, Repr

/-- One entry of a resource's status conditions, mirroring `metav1.Condition`
(the `lastTransitionTime` bookkeeping is delegated by the code to a shared
status-merge helper and plays no role in the claims, so it is omitted). -/
structure Condition where
  ctype : String
  status : ConditionStatus
  reason : String
  message : String
  deriving DecidableEq, Repr

/-- Constant `addOnAvailableConditionType` from the source. -/
def addOnAvailableConditionType : String := "ManagedClusterAddOnConditionAvailable"

/-- Constant `leaseDurationSeconds` from the source. -/
def leaseDurationSeconds : Int := 60

/-- Constant `leaseDurationTimes` from the source. -/
def leaseDurationTimes : Int := 5

/-- Grace period in seconds, as computed in `syncSingle`:
`time.Duration(leaseDurationTimes*leaseDurationSeconds) * time.Second`. -/
def gracePeriod : Int := leaseDurationTimes * leaseDurationSeconds

/-- Lease spec: `renewTime` is a pointer (`*metav1.MicroTime`) in the Go API,
so it is modelled as an `Option`; the source dereferences it without a nil
check. -/
structure LeaseSpec where
  renewTime : Option Time
  deriving DecidableEq, Repr

/-- A `coordv1.Lease` as used by the controller. -/
structure Lease where
  ns : String
  name : String
  spec : LeaseSpec
  deriving DecidableEq, Repr

/-- Error shape of a lister `Get`: Kubernetes distinguishes not-found errors
(via `errors.IsNotFound`) from every other error. -/
inductive GetErr where
  | notFound
  | other (msg : String)
  deriving DecidableEq, Repr

/-- A `ManagedClusterAddOn` as used by the controller: its name and its
status conditions. -/
structure AddOn where
  name : String
  conds : List Condition
  deriving DecidableEq, Repr

/-- Addon configuration, as produced by the extraction collaborator. -/
structure AddOnConfig where
  installationNamespace : String
  deriving DecidableEq, Repr

/-- Result of evaluating the lease-derived condition (the `switch` on the
lease lookup in `syncSingle`): a computed condition, a propagated lookup
error, or a nil-pointer panic when a found lease has no `renewTime`. -/
inductive EvalResult where
  | cond (c : Condition)
  | err (e : String)
  | panicked
  deriving DecidableEq, Repr

/-- Condition built in the not-found branch of `syncSingle`. -/
def leaseNotFoundCondition : Condition :=
  { ctype := addOnAvailableConditionType
    status := .conditionUnknown
    reason := "ManagedClusterAddOnLeaseNotFound"
    message := "Managed cluster addon agent lease is not found." }

/-- Condition built in the fresh-lease branch of `syncSingle`. -/
def leaseUpdatedCondition : Condition :=
  { ctype := addOnAvailableConditionType
    status := .conditionTrue
    reason := "ManagedClusterAddOnLeaseUpdated"
    message := "Managed cluster addon agent updates its lease constantly." }

/-- Condition built in the stale-lease branch of `syncSingle`. -/
def leaseUpdateStoppedCondition : Condition :=
  { ctype := addOnAvailableConditionType
    status := .conditionFalse
    reason := "ManagedClusterAddOnLeaseUpdateStopped"
    message := "Managed cluster addon agent stopped updating its lease." }

/-- The `switch` statement of `syncSingle` (lease lookup outcome to
condition): not-found yields the Unknown condition, any other lookup error
is propagated, and for a found lease the condition is True when
`now.Before(observedLease.Spec.RenewTime.Add(gracePeriod))` and False
otherwise. Dereferencing a nil `RenewTime` is a panic in Go and is modelled
by `EvalResult.panicked`. -/
def evalCondition (now : Time) (leaseRes : Except GetErr Lease) : EvalResult :=
  match leaseRes with
  | .error .notFound => .cond leaseNotFoundCondition
  | .error (.other e) => .err e
  | .ok observedLease =>
    match observedLease.spec.renewTime with
    | none => .panicked
    | some renewTime =>
      if now < renewTime + gracePeriod then
        .cond leaseUpdatedCondition
      else
        .cond leaseUpdateStoppedCondition

example : evalCondition 299 (.ok ⟨"ns1", "app", ⟨some 0⟩⟩) = .cond leaseUpdatedCondition := by decide
example : evalCondition 300 (.ok ⟨"ns1", "app", ⟨some 0⟩⟩) = .cond leaseUpdateStoppedCondition := by decide
example : evalCondition 0 (.error .notFound) = .cond leaseNotFoundCondition := by decide

/-- Loop of `meta.IsStatusConditionPresentAndEqual`: find the first stored
condition with the given type and compare its status with the given one. -/
def isStatusConditionPresentAndEqual (conds : List Condition)
    (conditionType : String) (status : ConditionStatus) : Bool :=
  match conds with
  | [] => false
  | c :: rest =>
    if c.ctype = conditionType then decide (c.status = status)
    else isStatusConditionPresentAndEqual rest conditionType status

/-- Modelled from the spec: the shared status-merge helper invoked through
`helpers.UpdateManagedClusterAddOnStatusFn` (code of this repository outside
`src/`) "upserts the single condition entry" — it overwrites the first stored
condition of the new condition's type, or appends when the type is absent. -/
def setStatusCondition (conds : List Condition) (newCond : Condition) : List Condition :=
  match conds with
  | [] => [newCond]
  | c :: rest =>
    if c.ctype = newCond.ctype then
      { c with status := newCond.status, reason := newCond.reason,
               message := newCond.message } :: rest
    else
      c :: setStatusCondition rest newCond

/-- Modelled from the spec: `helpers.UpdateManagedClusterAddOnStatus` (code of
this repository outside `src/`) is the collaborator
`conditionalUpdateStatus(kind, namespace, name, mutateFn) ->
(resource, changed:boolean, error)`: it applies the status-merge helper and
reports whether the stored status genuinely changed, writing only then. -/
def updateManagedClusterAddOnStatus (conds : List Condition) (cond : Condition) :
    List Condition × Bool :=
  let newConds := setStatusCondition conds cond
  if newConds = conds then (newConds, false) else (newConds, true)

/-- Result of one reconciliation invocation: success, a propagated error, or a
panic. -/
inductive SyncOutcome where
  | ok
  | errored (e : String)
  | panicked
  deriving DecidableEq, Repr

/-- One observable side effect of a reconciliation: a read or write of a named
resource in a namespace, or an audit event for an addon. -/
inductive Op where
  | addOnListOp (ns : String)
  | addOnGetOp (ns name : String)
  | leaseGetOp (ns name : String)
  | statusUpdateOp (ns name : String)
  | eventOp (name : String) (newStatus : ConditionStatus)
  deriving DecidableEq, Repr

/-- Trace of one `syncSingle` invocation: its outcome, the stored conditions
afterwards, how many store writes and audit events happened, the condition it
computed (if it got that far), and the operations it performed. -/
structure SingleRun where
  outcome : SyncOutcome
  conds : List Condition
  writes : Nat
  events : Nat
  condComputed : Option Condition
  ops : List Op
  deriving DecidableEq, Repr

/-- Translation of `syncSingle`, parameterised over the status-update
collaborator (`update` receives the computed condition and returns an error
or the new stored conditions together with the changed flag). The lease
lookup uses the given lease namespace with the addon's name; the status
update and the audit event address the controller's cluster name and the
addon's name. -/
def syncSingleGen (clusterName : String) (now : Time)
    (leaseGet : String → String → Except GetErr Lease)
    (update : Condition → Except String (List Condition × Bool))
    (leaseNamespace : String) (addOn : AddOn) : SingleRun :=
  let leaseOp := Op.leaseGetOp leaseNamespace addOn.name
  match evalCondition now (leaseGet leaseNamespace addOn.name) with
  | .panicked =>
    { outcome := .panicked, conds := addOn.conds, writes := 0, events := 0,
      condComputed := none, ops := [leaseOp] }
  | .err e =>
    { outcome := .errored e, conds := addOn.conds, writes := 0, events := 0,
      condComputed := none, ops := [leaseOp] }
  | .cond condition =>
    if isStatusConditionPresentAndEqual addOn.conds condition.ctype condition.status then
      { outcome := .ok, conds := addOn.conds, writes := 0, events := 0,
        condComputed := some condition, ops := [leaseOp] }
    else
      match update condition with
      | .error e =>
        { outcome := .errored e, conds := addOn.conds, writes := 0, events := 0,
          condComputed := some condition,
          ops := [leaseOp, .statusUpdateOp clusterName addOn.name] }
      | .ok (newConds, updated) =>
        { outcome := .ok, conds := newConds,
          writes := if updated then 1 else 0,
          events := if updated then 1 else 0,
          condComputed := some condition,
          ops :=
            if updated then
              [leaseOp, .statusUpdateOp clusterName addOn.name,
               .eventOp addOn.name condition.status]
            else
              [leaseOp, .statusUpdateOp clusterName addOn.name] }

/-- `syncSingle` with the spec-modelled status-update collaborator applied to
the addon's stored conditions. -/
def syncSingle (clusterName : String) (now : Time)
    (leaseGet : String → String → Except GetErr Lease)
    (leaseNamespace : String) (addOn : AddOn) : SingleRun :=
  syncSingleGen clusterName now leaseGet
    (fun condition => .ok (updateManagedClusterAddOnStatus addOn.conds condition))
    leaseNamespace addOn

/-- Split a character list at every slash, the way `strings.Split` with
separator `"/"` does. -/
def splitSlash : List Char → List (List Char)
  | [] => [[]]
  | ch :: rest =>
    let r := splitSlash rest
    if ch = '/' then [] :: r
    else (ch :: r.headD []) :: r.tail

/-- Translation of `cache.SplitMetaNamespaceKey`: a key with no slash is a
bare name (empty namespace), `ns/name` splits into the pair, and a key with
more slashes is an error. -/
def splitMetaNamespaceKey (key : String) : Except String (String × String) :=
  match (splitSlash key.data).map (fun cs => String.mk cs) with
  | [name] => .ok ("", name)
  | [ns, name] => .ok (ns, name)
  | _ => .error "unexpected key format"

example : splitMetaNamespaceKey "ns1/app1" = .ok ("ns1", "app1") := rfl
example : splitMetaNamespaceKey "app1" = .ok ("", "app1") := rfl
example : splitMetaNamespaceKey "a/b/c" = .error "unexpected key format" := rfl

/-- An entry added to the controller's work queue. Per-resource
reconciliation keys are `namespace/name` strings; the resync branch of `sync`
passes the addon object itself to `Queue().Add`, so the item type keeps both
shapes apart. -/
inductive QueueItem where
  | obj (a : AddOn)
  | key (s : String)
  deriving DecidableEq, Repr

/-- Read-side collaborators of one reconciliation: the addon lister, the
lease lister and the injected clock. -/
structure World where
  addOnList : String → Except String (List AddOn)
  addOnGet : String → String → Except GetErr AddOn
  leaseGet : String → String → Except GetErr Lease
  now : Time

/-- Fixed fields of `managedClusterAddOnLeaseController`: the cluster name
and the configuration-extraction collaborator (`getAddOnConfig` is code of
this repository outside `src/`; the spec treats extraction as an opaque
success/failure boundary, so it is a field here). -/
structure Controller where
  clusterName : String
  getAddOnConfig : AddOn → Except String AddOnConfig

/-- Sentinel `factory.DefaultQueueKey` that marks the periodic full resync. -/
def defaultQueueKey : String := "key"

/-- Trace of one `sync` invocation: its outcome, the items it added to the
work queue, and the operations it performed (those of the nested
`syncSingle` included). -/
structure SyncRun where
  outcome : SyncOutcome
  enqueued : List QueueItem
  ops : List Op
  deriving DecidableEq, Repr

/-- Translation of `sync`: on the default queue key, list the addons of the
cluster namespace (a listing error is returned) and enqueue every addon
whose configuration extraction succeeds — the loop body passes the addon
object to `Queue().Add`; on a per-resource key, parse it (a malformed key is
dropped), fetch the addon by name from the cluster namespace (not-found is a
no-op, another error is returned) and run `syncSingle` with the key's
namespace. -/
def sync (c : Controller) (w : World) (queueKey : String) : SyncRun :=
  if queueKey = defaultQueueKey then
    match w.addOnList c.clusterName with
    | .error e =>
      { outcome := .errored e, enqueued := [], ops := [.addOnListOp c.clusterName] }
    | .ok addOns =>
      { outcome := .ok
        enqueued := addOns.filterMap fun addOn =>
          match c.getAddOnConfig addOn with
          | .error _ => none
          | .ok _ => some (QueueItem.obj addOn)
        ops := [.addOnListOp c.clusterName] }
  else
    match splitMetaNamespaceKey queueKey with
    | .error _ => { outcome := .ok, enqueued := [], ops := [] }
    | .ok (addOnNamespace, addOnName) =>
      match w.addOnGet c.clusterName addOnName with
      | .error .notFound =>
        { outcome := .ok, enqueued := [], ops := [.addOnGetOp c.clusterName addOnName] }
      | .error (.other e) =>
        { outcome := .errored e, enqueued := [], ops := [.addOnGetOp c.clusterName addOnName] }
      | .ok addOn =>
        let r := syncSingle c.clusterName w.now w.leaseGet addOnNamespace addOn
        { outcome := r.outcome, enqueued := [],
          ops := Op.addOnGetOp c.clusterName addOnName :: r.ops }

/-- Translation of `queueKeyFunc`: map a changed lease to a reconciliation
key, or drop the event by returning the empty key — when the addon lookup
fails (any error), when configuration extraction fails, or when the lease
namespace is not the configured installation namespace. -/
def queueKeyFunc (c : Controller) (w : World) (lease : Lease) : String :=
  let name := lease.name
  match w.addOnGet c.clusterName name with
  | .error _ => ""
  | .ok addOn =>
    match c.getAddOnConfig addOn with
    | .error _ => ""
    | .ok addOnConfig =>
      if lease.ns ≠ addOnConfig.installationNamespace then ""
      else lease.ns ++ "/" ++ name

/-- Two consecutive single-resource reconciliations with no intervening
change to the addon, the lease or the clock: the second run reuses the
stored conditions produced by the first. -/
def syncSingleTwice (clusterName : String) (now : Time)
    (leaseGet : String → String → Except GetErr Lease)
    (leaseNamespace : String) (addOn : AddOn) : SingleRun × SingleRun :=
  let r1 := syncSingle clusterName now leaseGet leaseNamespace addOn
  let r2 := syncSingle clusterName now leaseGet leaseNamespace { addOn with conds := r1.conds }
  (r1, r2)

/-- Namespace discipline of one operation: addon reads and status updates
address the controller's cluster namespace, the lease lookup addresses the
queue key's namespace, and events carry no namespace. -/
def opNamespaceInvariant (clusterName leaseNamespace : String) : Op → Prop
  | .addOnListOp ns => ns = clusterName
  | .addOnGetOp ns _ => ns = clusterName
  | .statusUpdateOp ns _ => ns = clusterName
  | .leaseGetOp ns _ => ns = leaseNamespace
  | .eventOp _ _ => True

/-- Addon used in the concrete evaluations below. -/
def sampleAddOn : AddOn := { name := "app1", conds := [] }

/-- Controller used in the concrete evaluations below: cluster `cluster1`,
every addon configured with installation namespace `ns1`. -/
def sampleController : Controller :=
  { clusterName := "cluster1"
    getAddOnConfig := fun _ => .ok { installationNamespace := "ns1" } }

/-- World used for the concrete full-resync evaluation: listing the cluster
namespace yields exactly `sampleAddOn`. -/
def sampleResyncWorld : World :=
  { addOnList := fun _ => .ok [sampleAddOn]
    addOnGet := fun _ _ => .error .notFound
    leaseGet := fun _ _ => .error .notFound
    now := 0 }

/-! Helper lemmas shared by the claim theorems. -/

/-- Unfolding lemma: `syncSingleGen` on a propagated lease-lookup error. -/
theorem syncSingleGen_err (clusterName : String) (now : Time)
    (leaseGet : String → String → Except GetErr Lease)
    (update : Condition → Except String (List Condition × Bool))
    (leaseNamespace : String) (addOn : AddOn) (e : String)
    (h : evalCondition now (leaseGet leaseNamespace addOn.name) = .err e) :
    syncSingleGen clusterName now leaseGet update leaseNamespace addOn =
      { outcome := .errored e, conds := addOn.conds, writes := 0, events := 0,
        condComputed := none, ops := [.leaseGetOp leaseNamespace addOn.name] } := by
  simp only [syncSingleGen, h]

/-- Unfolding lemma: `syncSingleGen` when the lease dereference panics. -/
theorem syncSingleGen_panicked (clusterName : String) (now : Time)
    (leaseGet : String → String → Except GetErr Lease)
    (update : Condition → Except String (List Condition × Bool))
    (leaseNamespace : String) (addOn : AddOn)
    (h : evalCondition now (leaseGet leaseNamespace addOn.name) = .panicked) :
    syncSingleGen clusterName now leaseGet update leaseNamespace addOn =
      { outcome := .panicked, conds := addOn.conds, writes := 0, events := 0,
        condComputed := none, ops := [.leaseGetOp leaseNamespace addOn.name] } := by
  simp only [syncSingleGen, h]

/-- Unfolding lemma: `syncSingleGen` when the computed condition is already
stored with the same type and status. -/
theorem syncSingleGen_dup (clusterName : String) (now : Time)
    (leaseGet : String → String → Except GetErr Lease)
    (update : Condition → Except String (List Condition × Bool))
    (leaseNamespace : String) (addOn : AddOn) (condition : Condition)
    (h : evalCondition now (leaseGet leaseNamespace addOn.name) = .cond condition)
    (hdup : isStatusConditionPresentAndEqual addOn.conds condition.ctype condition.status = true) :
    syncSingleGen clusterName now leaseGet update leaseNamespace addOn =
      { outcome := .ok, conds := addOn.conds, writes := 0, events := 0,
        condComputed := some condition, ops := [.leaseGetOp leaseNamespace addOn.name] } := by
  simp only [syncSingleGen, h, hdup, if_true]

/-- Unfolding lemma: `syncSingleGen` when the computed condition is new and
the status-update collaborator fails. -/
theorem syncSingleGen_update_err (clusterName : String) (now : Time)
    (leaseGet : String → String → Except GetErr Lease)
    (update : Condition → Except String (List Condition × Bool))
    (leaseNamespace : String) (addOn : AddOn) (condition : Condition) (e : String)
    (h : evalCondition now (leaseGet leaseNamespace addOn.name) = .cond condition)
    (hdup : isStatusConditionPresentAndEqual addOn.conds condition.ctype condition.status = false)
    (hupd : update condition = .error e) :
    syncSingleGen clusterName now leaseGet update leaseNamespace addOn =
      { outcome := .errored e, conds := addOn.conds, writes := 0, events := 0,
        condComputed := some condition,
        ops := [.leaseGetOp leaseNamespace addOn.name,
                .statusUpdateOp clusterName addOn.name] } := by
  simp only [syncSingleGen, h, hdup, Bool.false_eq_true, if_false, hupd]

/-- Unfolding lemma: `syncSingleGen` when the computed condition is new and
the status-update collaborator succeeds with changed flag `updated`. -/
theorem syncSingleGen_update_ok (clusterName : String) (now : Time)
    (leaseGet : String → String → Except GetErr Lease)
    (update : Condition → Except String (List Condition × Bool))
    (leaseNamespace : String) (addOn : AddOn) (condition : Condition)
    (newConds : List Condition) (updated : Bool)
    (h : evalCondition now (leaseGet leaseNamespace addOn.name) = .cond condition)
    (hdup : isStatusConditionPresentAndEqual addOn.conds condition.ctype condition.status = false)
    (hupd : update condition = .ok (newConds, updated)) :
    syncSingleGen clusterName now leaseGet update leaseNamespace addOn =
      { outcome := .ok, conds := newConds,
        writes := if updated then 1 else 0,
        events := if updated then 1 else 0,
        condComputed := some condition,
        ops :=
          if updated then
            [.leaseGetOp leaseNamespace addOn.name,
             .statusUpdateOp clusterName addOn.name,
             .eventOp addOn.name condition.status]
          else
            [.leaseGetOp leaseNamespace addOn.name,
             .statusUpdateOp clusterName addOn.name] } := by
  simp only [syncSingleGen, h, hdup, Bool.false_eq_true, if_false, hupd]

/-! Claim theorems. -/

/-- C1: for every addon whose lease is found, the computed availability
condition has status True with reason "ManagedClusterAddOnLeaseUpdated"
exactly when the injected clock's now is strictly before
`renewTime + gracePeriod`, and status False with reason
"ManagedClusterAddOnLeaseUpdateStopped" otherwise (at exactly
`now = renewTime + gracePeriod` the status is False), where `gracePeriod`
is exactly 5 × 60 = 300 seconds. -/
theorem grace_period_availability_threshold (now renewTime : Time) (lease : Lease)
    (h : lease.spec.renewTime = some renewTime) :
    gracePeriod = 5 * 60 ∧
    leaseUpdatedCondition.status = .conditionTrue ∧
    leaseUpdatedCondition.reason = "ManagedClusterAddOnLeaseUpdated" ∧
    leaseUpdateStoppedCondition.status = .conditionFalse ∧
    leaseUpdateStoppedCondition.reason = "ManagedClusterAddOnLeaseUpdateStopped" ∧
    (evalCondition now (.ok lease) = .cond leaseUpdatedCondition ↔
        now < renewTime + gracePeriod) ∧
    (evalCondition now (.ok lease) = .cond leaseUpdateStoppedCondition ↔
        renewTime + gracePeriod ≤ now) := by
  have hne : leaseUpdatedCondition ≠ leaseUpdateStoppedCondition := by decide
  refine ⟨by decide, rfl, rfl, rfl, rfl, ?_, ?_⟩ <;>
    by_cases hlt : now < renewTime + gracePeriod <;>
      simp [evalCondition, h, hlt, hne, Ne.symm hne, le_of_not_lt, not_le_of_lt]

/-- C1 witness: with `renewTime = 0` and `now = 299` the availability
condition is the fresh-lease one, and `299 < 0 + gracePeriod` holds. -/
theorem grace_period_availability_threshold_witness :
    gracePeriod = 5 * 60 ∧
    leaseUpdatedCondition.status = .conditionTrue ∧
    leaseUpdatedCondition.reason = "ManagedClusterAddOnLeaseUpdated" ∧
    leaseUpdateStoppedCondition.status = .conditionFalse ∧
    leaseUpdateStoppedCondition.reason = "ManagedClusterAddOnLeaseUpdateStopped" ∧
    (evalCondition 299 (.ok ⟨"ns1", "app1", ⟨some 0⟩⟩) = .cond leaseUpdatedCondition ↔
        (299 : Time) < 0 + gracePeriod) ∧
    (evalCondition 299 (.ok ⟨"ns1", "app1", ⟨some 0⟩⟩) = .cond leaseUpdateStoppedCondition ↔
        (0 : Time) + gracePeriod ≤ 299) :=
  grace_period_availability_threshold 299 0 ⟨"ns1", "app1", ⟨some 0⟩⟩ rfl

/-- Outcome of the concrete `syncSingle` as a function of the lease-derived
condition evaluation: the spec-modelled status update never fails, so the
only error returned is a propagated lease lookup error. -/
theorem syncSingle_outcome (clusterName : String) (now : Time)
    (leaseGet : String → String → Except GetErr Lease)
    (leaseNamespace : String) (addOn : AddOn) :
    (syncSingle clusterName now leaseGet leaseNamespace addOn).outcome =
      match evalCondition now (leaseGet leaseNamespace addOn.name) with
      | .cond _ => .ok
      | .err e => .errored e
      | .panicked => .panicked := by
  unfold syncSingle syncSingleGen
  cases evalCondition now (leaseGet leaseNamespace addOn.name) with
  | cond condition =>
    rcases hu : updateManagedClusterAddOnStatus addOn.conds condition with ⟨newConds, updated⟩
    simp only [hu]
    split <;> rfl
  | err e => rfl
  | panicked => rfl

/-- Computed condition of the concrete `syncSingle` as a function of the
lease-derived condition evaluation. -/
theorem syncSingle_condComputed (clusterName : String) (now : Time)
    (leaseGet : String → String → Except GetErr Lease)
    (leaseNamespace : String) (addOn : AddOn) :
    (syncSingle clusterName now leaseGet leaseNamespace addOn).condComputed =
      match evalCondition now (leaseGet leaseNamespace addOn.name) with
      | .cond condition => some condition
      | .err _ => none
      | .panicked => none := by
  unfold syncSingle syncSingleGen
  cases evalCondition now (leaseGet leaseNamespace addOn.name) with
  | cond condition =>
    rcases hu : updateManagedClusterAddOnStatus addOn.conds condition with ⟨newConds, updated⟩
    simp only [hu]
    split <;> rfl
  | err e => rfl
  | panicked => rfl

/-- C5: `syncSingle` returns an error from the lease lookup exactly when the
lookup fails with an error other than not-found, and then computes no
condition, performs no status write and emits no event; when the lease is
not found it proceeds without error using the condition with status Unknown
and reason "ManagedClusterAddOnLeaseNotFound". -/
theorem lease_lookup_error_propagation (clusterName : String) (now : Time)
    (leaseGet : String → String → Except GetErr Lease)
    (leaseNamespace : String) (addOn : AddOn) :
    leaseNotFoundCondition.status = .conditionUnknown ∧
    leaseNotFoundCondition.reason = "ManagedClusterAddOnLeaseNotFound" ∧
    (∀ e, (syncSingle clusterName now leaseGet leaseNamespace addOn).outcome = .errored e ↔
        leaseGet leaseNamespace addOn.name = .error (.other e)) ∧
    (∀ e, leaseGet leaseNamespace addOn.name = .error (.other e) →
        syncSingle clusterName now leaseGet leaseNamespace addOn =
          { outcome := .errored e, conds := addOn.conds, writes := 0, events := 0,
            condComputed := none, ops := [.leaseGetOp leaseNamespace addOn.name] }) ∧
    (leaseGet leaseNamespace addOn.name = .error .notFound →
        (syncSingle clusterName now leaseGet leaseNamespace addOn).condComputed =
            some leaseNotFoundCondition ∧
        (syncSingle clusterName now leaseGet leaseNamespace addOn).outcome = .ok) := by
  refine ⟨rfl, rfl, ?_, ?_, ?_⟩
  · intro e
    rw [syncSingle_outcome]
    cases hres : leaseGet leaseNamespace addOn.name with
    | error ge =>
      cases ge with
      | notFound => simp [evalCondition]
      | other e' => simp [evalCondition]
    | ok lease =>
      cases hrt : lease.spec.renewTime with
      | none => simp [evalCondition, hrt]
      | some renewTime =>
        by_cases hlt : now < renewTime + gracePeriod <;> simp [evalCondition, hrt, hlt]
  · intro e hres
    have hev : evalCondition now (leaseGet leaseNamespace addOn.name) = .err e := by
      rw [hres]; rfl
    exact syncSingleGen_err clusterName now leaseGet _ leaseNamespace addOn e hev
  · intro hres
    have hev : evalCondition now (leaseGet leaseNamespace addOn.name) =
        .cond leaseNotFoundCondition := by rw [hres]; rfl
    refine ⟨?_, ?_⟩
    · rw [syncSingle_condComputed, hev]
    · rw [syncSingle_outcome, hev]

/-- C5 witness: a lease lister failing with a non-not-found error makes the
reconciliation return exactly that error with no write, no event and no
computed condition. -/
theorem lease_lookup_error_propagation_witness :
    syncSingle "cluster1" 0 (fun _ _ => .error (.other "boom")) "ns1" ⟨"app1", []⟩ =
      { outcome := .errored "boom", conds := [], writes := 0, events := 0,
        condComputed := none, ops := [.leaseGetOp "ns1" "app1"] } :=
  (lease_lookup_error_propagation "cluster1" 0 (fun _ _ => .error (.other "boom"))
    "ns1" ⟨"app1", []⟩).2.2.2.1 "boom" rfl

/-- C10: when the lease lookup succeeds, `syncSingle` dereferences the
lease's `renewTime` with no nil guard: a found lease with a nil `renewTime`
makes the evaluation panic rather than produce an error or an Unknown
condition, while under the precondition that the found lease carries a
`renewTime` the evaluation is total and produces a condition. -/
theorem nil_renew_time_panics (clusterName : String) (now : Time)
    (leaseGet : String → String → Except GetErr Lease)
    (leaseNamespace : String) (addOn : AddOn) (lease : Lease)
    (hfound : leaseGet leaseNamespace addOn.name = .ok lease) :
    (lease.spec.renewTime = none →
        evalCondition now (.ok lease) = .panicked ∧
        (syncSingle clusterName now leaseGet leaseNamespace addOn).outcome = .panicked) ∧
    (∀ renewTime, lease.spec.renewTime = some renewTime →
        (∃ condition, evalCondition now (.ok lease) = .cond condition) ∧
        (syncSingle clusterName now leaseGet leaseNamespace addOn).outcome = .ok) := by
  constructor
  · intro hrt
    have hev : evalCondition now (.ok lease) = .panicked := by
      simp [evalCondition, hrt]
    refine ⟨hev, ?_⟩
    rw [syncSingle_outcome, hfound, hev]
  · intro renewTime hrt
    by_cases hlt : now < renewTime + gracePeriod
    · have hev : evalCondition now (.ok lease) = .cond leaseUpdatedCondition := by
        simp [evalCondition, hrt, hlt]
      exact ⟨⟨leaseUpdatedCondition, hev⟩, by rw [syncSingle_outcome, hfound, hev]⟩
    · have hev : evalCondition now (.ok lease) = .cond leaseUpdateStoppedCondition := by
        simp [evalCondition, hrt, hlt]
      exact ⟨⟨leaseUpdateStoppedCondition, hev⟩, by rw [syncSingle_outcome, hfound, hev]⟩

/-- C10 witness: a found lease with a nil `renewTime` panics the
reconciliation. -/
theorem nil_renew_time_panics_witness :
    evalCondition 0 (.ok ⟨"ns1", "app1", ⟨none⟩⟩) = .panicked ∧
    (syncSingle "cluster1" 0 (fun _ _ => .ok ⟨"ns1", "app1", ⟨none⟩⟩) "ns1"
        ⟨"app1", []⟩).outcome = .panicked :=
  (nil_renew_time_panics "cluster1" 0 (fun _ _ => .ok ⟨"ns1", "app1", ⟨none⟩⟩) "ns1"
    ⟨"app1", []⟩ ⟨"ns1", "app1", ⟨none⟩⟩ rfl).1 rfl

/-- With at most one stored condition per type (the data-model invariant), a
stored condition matching the given type and status is found by the
first-match dedup check. -/
theorem isPresentAndEqual_of_mem (conds : List Condition) (stored : Condition)
    (conditionType : String) (status : ConditionStatus)
    (hnodup : (conds.map Condition.ctype).Nodup)
    (hmem : stored ∈ conds) (hty : stored.ctype = conditionType)
    (hst : stored.status = status) :
    isStatusConditionPresentAndEqual conds conditionType status = true := by
  induction conds with
  | nil => cases hmem
  | cons c rest ih =>
    simp only [List.map_cons, List.nodup_cons] at hnodup
    rcases List.mem_cons.mp hmem with rfl | hmem'
    · simp [isStatusConditionPresentAndEqual, hty, hst]
    · by_cases hc : c.ctype = conditionType
      · exfalso
        have h1 : stored.ctype ∈ rest.map Condition.ctype :=
          List.mem_map_of_mem Condition.ctype hmem'
        rw [hty, ← hc] at h1
        exact hnodup.1 h1
      · simp only [isStatusConditionPresentAndEqual, if_neg hc]
        exact ih hnodup.2 hmem'

/-- C3: when the stored conditions already contain a condition with the same
type and the same status as the newly computed one (condition types being
unique in the stored list, per the data model), `syncSingle` performs no
store write, emits no audit event and returns success — even when the stored
condition's reason or message differ from the computed ones, and for every
status-update collaborator (which is never invoked). -/
theorem dedup_skips_write_and_event (clusterName : String) (now : Time)
    (leaseGet : String → String → Except GetErr Lease)
    (update : Condition → Except String (List Condition × Bool))
    (leaseNamespace : String) (addOn : AddOn) (condition stored : Condition)
    (hcond : evalCondition now (leaseGet leaseNamespace addOn.name) = .cond condition)
    (hnodup : (addOn.conds.map Condition.ctype).Nodup)
    (hmem : stored ∈ addOn.conds) (hty : stored.ctype = condition.ctype)
    (hst : stored.status = condition.status) :
    syncSingleGen clusterName now leaseGet update leaseNamespace addOn =
      { outcome := .ok, conds := addOn.conds, writes := 0, events := 0,
        condComputed := some condition,
        ops := [.leaseGetOp leaseNamespace addOn.name] } :=
  syncSingleGen_dup clusterName now leaseGet update leaseNamespace addOn condition hcond
    (isPresentAndEqual_of_mem addOn.conds stored condition.ctype condition.status
      hnodup hmem hty hst)

/-- C3 witness: the stored available condition has an old reason and message;
the recomputed condition matches on type and status, so the run is a no-op
even though the status-update collaborator would fail if invoked. -/
theorem dedup_skips_write_and_event_witness :
    syncSingleGen "cluster1" 0 (fun _ _ => .ok ⟨"ns1", "app1", ⟨some 0⟩⟩)
        (fun _ => .error "update must not be called") "ns1"
        ⟨"app1", [⟨addOnAvailableConditionType, .conditionTrue, "OldReason", "old message"⟩]⟩ =
      { outcome := .ok
        conds := [⟨addOnAvailableConditionType, .conditionTrue, "OldReason", "old message"⟩]
        writes := 0, events := 0, condComputed := some leaseUpdatedCondition
        ops := [.leaseGetOp "ns1" "app1"] } :=
  dedup_skips_write_and_event "cluster1" 0 (fun _ _ => .ok ⟨"ns1", "app1", ⟨some 0⟩⟩)
    (fun _ => .error "update must not be called") "ns1"
    ⟨"app1", [⟨addOnAvailableConditionType, .conditionTrue, "OldReason", "old message"⟩]⟩
    leaseUpdatedCondition ⟨addOnAvailableConditionType, .conditionTrue, "OldReason", "old message"⟩
    (by decide) (by decide) (by decide) rfl rfl

/-- C6: after a new condition is computed (the dedup check fails), a failing
status update propagates its error and emits no event; a successful update
reporting a genuine change emits exactly one audit event, carrying the new
status; a successful update reporting no change emits no event. -/
theorem event_iff_genuine_update (clusterName : String) (now : Time)
    (leaseGet : String → String → Except GetErr Lease)
    (update : Condition → Except String (List Condition × Bool))
    (leaseNamespace : String) (addOn : AddOn) (condition : Condition)
    (hcond : evalCondition now (leaseGet leaseNamespace addOn.name) = .cond condition)
    (hnew : isStatusConditionPresentAndEqual addOn.conds condition.ctype condition.status
        = false) :
    (∀ e, update condition = .error e →
        syncSingleGen clusterName now leaseGet update leaseNamespace addOn =
          { outcome := .errored e, conds := addOn.conds, writes := 0, events := 0,
            condComputed := some condition,
            ops := [.leaseGetOp leaseNamespace addOn.name,
                    .statusUpdateOp clusterName addOn.name] }) ∧
    (∀ newConds, update condition = .ok (newConds, true) →
        syncSingleGen clusterName now leaseGet update leaseNamespace addOn =
          { outcome := .ok, conds := newConds, writes := 1, events := 1,
            condComputed := some condition,
            ops := [.leaseGetOp leaseNamespace addOn.name,
                    .statusUpdateOp clusterName addOn.name,
                    .eventOp addOn.name condition.status] }) ∧
    (∀ newConds, update condition = .ok (newConds, false) →
        syncSingleGen clusterName now leaseGet update leaseNamespace addOn =
          { outcome := .ok, conds := newConds, writes := 0, events := 0,
            condComputed := some condition,
            ops := [.leaseGetOp leaseNamespace addOn.name,
                    .statusUpdateOp clusterName addOn.name] }) := by
  refine ⟨?_, ?_, ?_⟩
  · intro e hupd
    exact syncSingleGen_update_err clusterName now leaseGet update leaseNamespace addOn
      condition e hcond hnew hupd
  · intro newConds hupd
    have h := syncSingleGen_update_ok clusterName now leaseGet update leaseNamespace addOn
      condition newConds true hcond hnew hupd
    simpa using h
  · intro newConds hupd
    have h := syncSingleGen_update_ok clusterName now leaseGet update leaseNamespace addOn
      condition newConds false hcond hnew hupd
    simpa using h

/-- C6 witness: with no stored conditions and a status update reporting a
genuine change, exactly one audit event is emitted, carrying the new
status. -/
theorem event_iff_genuine_update_witness :
    syncSingleGen "cluster1" 0 (fun _ _ => .ok ⟨"ns1", "app1", ⟨some 0⟩⟩)
        (fun _ => .ok ([leaseUpdatedCondition], true)) "ns1" ⟨"app1", []⟩ =
      { outcome := .ok, conds := [leaseUpdatedCondition], writes := 1, events := 1,
        condComputed := some leaseUpdatedCondition,
        ops := [.leaseGetOp "ns1" "app1", .statusUpdateOp "cluster1" "app1",
                .eventOp "app1" leaseUpdatedCondition.status] } :=
  (event_iff_genuine_update "cluster1" 0 (fun _ _ => .ok ⟨"ns1", "app1", ⟨some 0⟩⟩)
    (fun _ => .ok ([leaseUpdatedCondition], true)) "ns1" ⟨"app1", []⟩ leaseUpdatedCondition
    (by decide) rfl).2.1 [leaseUpdatedCondition] rfl

/-- Upserting a condition always leaves a stored condition of its type with
its status, found by the first-match dedup check. -/
theorem isPresentAndEqual_setStatusCondition (conds : List Condition) (c : Condition) :
    isStatusConditionPresentAndEqual (setStatusCondition conds c) c.ctype c.status = true := by
  induction conds with
  | nil => simp [setStatusCondition, isStatusConditionPresentAndEqual]
  | cons d rest ih =>
    by_cases hd : d.ctype = c.ctype
    · simp [setStatusCondition, hd, isStatusConditionPresentAndEqual]
    · simp only [setStatusCondition, if_neg hd]
      simp only [isStatusConditionPresentAndEqual, if_neg hd]
      exact ih

/-- If the computed condition's type and status are not yet stored, the
upsert genuinely changes the stored conditions. -/
theorem setStatusCondition_ne_of_not_present (conds : List Condition) (c : Condition)
    (h : isStatusConditionPresentAndEqual conds c.ctype c.status = false) :
    setStatusCondition conds c ≠ conds := by
  intro heq
  have hp := isPresentAndEqual_setStatusCondition conds c
  rw [heq, h] at hp
  exact Bool.false_ne_true hp

/-- Unfolding lemma: when the computed condition's type and status are not
yet stored, the concrete `syncSingle` upserts the condition, performs one
store write and emits one audit event. -/
theorem syncSingle_update (clusterName : String) (now : Time)
    (leaseGet : String → String → Except GetErr Lease)
    (leaseNamespace : String) (addOn : AddOn) (condition : Condition)
    (hcond : evalCondition now (leaseGet leaseNamespace addOn.name) = .cond condition)
    (hnew : isStatusConditionPresentAndEqual addOn.conds condition.ctype condition.status
        = false) :
    syncSingle clusterName now leaseGet leaseNamespace addOn =
      { outcome := .ok, conds := setStatusCondition addOn.conds condition,
        writes := 1, events := 1, condComputed := some condition,
        ops := [.leaseGetOp leaseNamespace addOn.name,
                .statusUpdateOp clusterName addOn.name,
                .eventOp addOn.name condition.status] } := by
  have hne : setStatusCondition addOn.conds condition ≠ addOn.conds :=
    setStatusCondition_ne_of_not_present addOn.conds condition hnew
  have hupd : (fun c => Except.ok (updateManagedClusterAddOnStatus addOn.conds c) :
      Condition → Except String (List Condition × Bool)) condition =
      .ok (setStatusCondition addOn.conds condition, true) := by
    simp only [updateManagedClusterAddOnStatus, if_neg hne]
  unfold syncSingle
  rw [syncSingleGen_update_ok clusterName now leaseGet _ leaseNamespace addOn condition
    (setStatusCondition addOn.conds condition) true hcond hnew hupd]
  rfl

/-- Unfolding lemma: when the computed condition's type and status are
already stored, the concrete `syncSingle` is a no-op returning success. -/
theorem syncSingle_noop_of_present (clusterName : String) (now : Time)
    (leaseGet : String → String → Except GetErr Lease)
    (leaseNamespace : String) (addOn : AddOn) (condition : Condition)
    (hcond : evalCondition now (leaseGet leaseNamespace addOn.name) = .cond condition)
    (hdup : isStatusConditionPresentAndEqual addOn.conds condition.ctype condition.status
        = true) :
    syncSingle clusterName now leaseGet leaseNamespace addOn =
      { outcome := .ok, conds := addOn.conds, writes := 0, events := 0,
        condComputed := some condition, ops := [.leaseGetOp leaseNamespace addOn.name] } := by
  unfold syncSingle
  exact syncSingleGen_dup clusterName now leaseGet _ leaseNamespace addOn condition hcond hdup

/-- After a reconciliation that computed a condition, that condition's type
and status are stored. -/
theorem syncSingle_present_after (clusterName : String) (now : Time)
    (leaseGet : String → String → Except GetErr Lease)
    (leaseNamespace : String) (addOn : AddOn) (condition : Condition)
    (hcond : evalCondition now (leaseGet leaseNamespace addOn.name) = .cond condition) :
    isStatusConditionPresentAndEqual
      (syncSingle clusterName now leaseGet leaseNamespace addOn).conds
      condition.ctype condition.status = true := by
  cases hdup : isStatusConditionPresentAndEqual addOn.conds condition.ctype condition.status with
  | true =>
    rw [syncSingle_noop_of_present clusterName now leaseGet leaseNamespace addOn condition
      hcond hdup]
    exact hdup
  | false =>
    rw [syncSingle_update clusterName now leaseGet leaseNamespace addOn condition hcond hdup]
    exact isPresentAndEqual_setStatusCondition addOn.conds condition

/-- C7 counterexample: with the availability condition already stored as True
and a still-fresh lease, two consecutive reconciliations with no intervening
change perform zero store writes and zero audit events — not exactly one
store write. -/
theorem double_reconcile_zero_writes :
    (syncSingleTwice "cluster1" 0 (fun _ _ => .ok ⟨"ns1", "app1", ⟨some 0⟩⟩) "ns1"
        ⟨"app1", [leaseUpdatedCondition]⟩).1.writes = 0 ∧
    (syncSingleTwice "cluster1" 0 (fun _ _ => .ok ⟨"ns1", "app1", ⟨some 0⟩⟩) "ns1"
        ⟨"app1", [leaseUpdatedCondition]⟩).2.writes = 0 ∧
    (syncSingleTwice "cluster1" 0 (fun _ _ => .ok ⟨"ns1", "app1", ⟨some 0⟩⟩) "ns1"
        ⟨"app1", [leaseUpdatedCondition]⟩).1.events = 0 ∧
    (syncSingleTwice "cluster1" 0 (fun _ _ => .ok ⟨"ns1", "app1", ⟨some 0⟩⟩) "ns1"
        ⟨"app1", [leaseUpdatedCondition]⟩).2.events = 0 := by
  decide

/-- C7 (amended): running the single-resource reconciliation twice in a row
with no intervening change to the addon, the lease or the clock produces at
most one store write and at most one audit event — exactly one of each when
the computed condition's type and status were not already stored — and the
second run finds the stored condition equal to the recomputed one on type
and status and is a no-op returning success. -/
theorem double_reconcile_second_run_noop (clusterName : String) (now : Time)
    (leaseGet : String → String → Except GetErr Lease)
    (leaseNamespace : String) (addOn : AddOn) (condition : Condition)
    (hcond : evalCondition now (leaseGet leaseNamespace addOn.name) = .cond condition) :
    (syncSingleTwice clusterName now leaseGet leaseNamespace addOn).1.writes ≤ 1 ∧
    (syncSingleTwice clusterName now leaseGet leaseNamespace addOn).1.events ≤ 1 ∧
    (syncSingleTwice clusterName now leaseGet leaseNamespace addOn).2 =
      { outcome := .ok
        conds := (syncSingleTwice clusterName now leaseGet leaseNamespace addOn).1.conds
        writes := 0, events := 0, condComputed := some condition
        ops := [.leaseGetOp leaseNamespace addOn.name] } ∧
    (isStatusConditionPresentAndEqual addOn.conds condition.ctype condition.status = false →
        (syncSingleTwice clusterName now leaseGet leaseNamespace addOn).1.writes = 1 ∧
        (syncSingleTwice clusterName now leaseGet leaseNamespace addOn).1.events = 1) := by
  have hpres := syncSingle_present_after clusterName now leaseGet leaseNamespace addOn
    condition hcond
  have hnoop := syncSingle_noop_of_present clusterName now leaseGet leaseNamespace
    { addOn with conds := (syncSingle clusterName now leaseGet leaseNamespace addOn).conds }
    condition hcond hpres
  have h2 : (syncSingleTwice clusterName now leaseGet leaseNamespace addOn).2 =
      { outcome := .ok
        conds := (syncSingleTwice clusterName now leaseGet leaseNamespace addOn).1.conds
        writes := 0, events := 0, condComputed := some condition
        ops := [.leaseGetOp leaseNamespace addOn.name] } := hnoop
  have hfst : (syncSingleTwice clusterName now leaseGet leaseNamespace addOn).1 =
      syncSingle clusterName now leaseGet leaseNamespace addOn := rfl
  cases hdup : isStatusConditionPresentAndEqual addOn.conds condition.ctype condition.status with
  | true =>
    have h1 := syncSingle_noop_of_present clusterName now leaseGet leaseNamespace addOn
      condition hcond hdup
    refine ⟨?_, ?_, h2, ?_⟩
    · rw [hfst, h1]
      exact Nat.zero_le 1
    · rw [hfst, h1]
      exact Nat.zero_le 1
    · intro hfalse
      exact absurd hfalse (by simp)
  | false =>
    have h1 := syncSingle_update clusterName now leaseGet leaseNamespace addOn condition
      hcond hdup
    refine ⟨?_, ?_, h2, ?_⟩
    · rw [hfst, h1]
    · rw [hfst, h1]
    · intro _
      rw [hfst, h1]
      exact ⟨rfl, rfl⟩

/-- C7 witness: with no stored conditions and a fresh lease, the first run
performs exactly one store write and one audit event. -/
theorem double_reconcile_second_run_noop_witness :
    (syncSingleTwice "cluster1" 0 (fun _ _ => .ok ⟨"ns1", "app1", ⟨some 0⟩⟩) "ns1"
        ⟨"app1", []⟩).1.writes = 1 ∧
    (syncSingleTwice "cluster1" 0 (fun _ _ => .ok ⟨"ns1", "app1", ⟨some 0⟩⟩) "ns1"
        ⟨"app1", []⟩).1.events = 1 :=
  (double_reconcile_second_run_noop "cluster1" 0 (fun _ _ => .ok ⟨"ns1", "app1", ⟨some 0⟩⟩)
    "ns1" ⟨"app1", []⟩ leaseUpdatedCondition (by decide)).2.2.2 rfl

/-- C4: `queueKeyFunc` returns the empty key for a lease whose namespace
differs from the owning addon's configured installation namespace, and
returns `namespace/name` when the addon named like the lease is found in the
controller's cluster scope, its configuration is extractable, and the lease
namespace equals the configured installation namespace. -/
theorem queue_key_namespace_filter (c : Controller) (w : World) (lease : Lease)
    (addOn : AddOn) (addOnConfig : AddOnConfig)
    (hget : w.addOnGet c.clusterName lease.name = .ok addOn)
    (hcfg : c.getAddOnConfig addOn = .ok addOnConfig) :
    (lease.ns ≠ addOnConfig.installationNamespace → queueKeyFunc c w lease = "") ∧
    (lease.ns = addOnConfig.installationNamespace →
        queueKeyFunc c w lease = lease.ns ++ "/" ++ lease.name) := by
  constructor <;> intro h <;> simp [queueKeyFunc, hget, hcfg, h]

/-- C4 witness: a lease in a namespace other than the configured `ns1` is
dropped, and a lease in `ns1` is mapped to the key `ns1/app1`. -/
theorem queue_key_namespace_filter_witness :
    ((⟨"wrong-ns", "app1", ⟨some 0⟩⟩ : Lease).ns ≠ "ns1" →
        queueKeyFunc { clusterName := "cluster1", getAddOnConfig := fun _ => .ok ⟨"ns1"⟩ }
          { addOnList := fun _ => .ok [], addOnGet := fun _ _ => .ok ⟨"app1", []⟩,
            leaseGet := fun _ _ => .error .notFound, now := 0 }
          ⟨"wrong-ns", "app1", ⟨some 0⟩⟩ = "") ∧
    ((⟨"wrong-ns", "app1", ⟨some 0⟩⟩ : Lease).ns = "ns1" →
        queueKeyFunc { clusterName := "cluster1", getAddOnConfig := fun _ => .ok ⟨"ns1"⟩ }
          { addOnList := fun _ => .ok [], addOnGet := fun _ _ => .ok ⟨"app1", []⟩,
            leaseGet := fun _ _ => .error .notFound, now := 0 }
          ⟨"wrong-ns", "app1", ⟨some 0⟩⟩ = "wrong-ns" ++ "/" ++ "app1") :=
  queue_key_namespace_filter
    { clusterName := "cluster1", getAddOnConfig := fun _ => .ok ⟨"ns1"⟩ }
    { addOnList := fun _ => .ok [], addOnGet := fun _ _ => .ok ⟨"app1", []⟩,
      leaseGet := fun _ _ => .error .notFound, now := 0 }
    ⟨"wrong-ns", "app1", ⟨some 0⟩⟩ ⟨"app1", []⟩ ⟨"ns1"⟩ rfl rfl

/-- C8: `queueKeyFunc` returns the empty key whenever the addon lookup fails
with any error — not only not-found — so a transient lister error silently
drops the heartbeat event instead of propagating it. -/
theorem queue_key_drops_any_lookup_error (c : Controller) (w : World) (lease : Lease)
    (e : GetErr) (hget : w.addOnGet c.clusterName lease.name = .error e) :
    queueKeyFunc c w lease = "" := by
  simp [queueKeyFunc, hget]

/-- C8 witness: a non-not-found lister error also yields the empty key. -/
theorem queue_key_drops_any_lookup_error_witness :
    queueKeyFunc { clusterName := "cluster1", getAddOnConfig := fun _ => .ok ⟨"ns1"⟩ }
      { addOnList := fun _ => .ok [], addOnGet := fun _ _ => .error (.other "cache failure"),
        leaseGet := fun _ _ => .error .notFound, now := 0 }
      ⟨"ns1", "app1", ⟨some 0⟩⟩ = "" :=
  queue_key_drops_any_lookup_error
    { clusterName := "cluster1", getAddOnConfig := fun _ => .ok ⟨"ns1"⟩ }
    { addOnList := fun _ => .ok [], addOnGet := fun _ _ => .error (.other "cache failure"),
      leaseGet := fun _ _ => .error .notFound, now := 0 }
    ⟨"ns1", "app1", ⟨some 0⟩⟩ (.other "cache failure") rfl

/-- Every operation of one `syncSingle` run is the lease lookup in the given
lease namespace, the status update addressed to the cluster name, or an
audit event for the addon. -/
theorem syncSingle_ops_shape (clusterName : String) (now : Time)
    (leaseGet : String → String → Except GetErr Lease)
    (leaseNamespace : String) (addOn : AddOn) (op : Op)
    (hop : op ∈ (syncSingle clusterName now leaseGet leaseNamespace addOn).ops) :
    op = .leaseGetOp leaseNamespace addOn.name ∨
    op = .statusUpdateOp clusterName addOn.name ∨
    ∃ st, op = .eventOp addOn.name st := by
  rcases hev : evalCondition now (leaseGet leaseNamespace addOn.name) with condition | e | _
  · cases hdup : isStatusConditionPresentAndEqual addOn.conds condition.ctype
        condition.status with
    | true =>
      rw [syncSingle_noop_of_present clusterName now leaseGet leaseNamespace addOn
        condition hev hdup] at hop
      simp at hop
      exact Or.inl hop
    | false =>
      rw [syncSingle_update clusterName now leaseGet leaseNamespace addOn condition
        hev hdup] at hop
      simp at hop
      rcases hop with h | h | h
      · exact Or.inl h
      · exact Or.inr (Or.inl h)
      · exact Or.inr (Or.inr ⟨condition.status, h⟩)
  · unfold syncSingle at hop
    rw [syncSingleGen_err clusterName now leaseGet _ leaseNamespace addOn e hev] at hop
    simp at hop
    exact Or.inl hop
  · unfold syncSingle at hop
    rw [syncSingleGen_panicked clusterName now leaseGet _ leaseNamespace addOn hev] at hop
    simp at hop
    exact Or.inl hop

/-- C9: for a queue key that parses as `namespace/name`, every addon list,
addon get and addon status update performed by `sync` (the nested
`syncSingle` included) addresses the controller's fixed cluster namespace,
while the key's namespace component is used only as the namespace of the
lease lookup. -/
theorem addon_ops_use_cluster_namespace (c : Controller) (w : World) (queueKey : String)
    (addOnNamespace addOnName : String) (op : Op)
    (hkey : splitMetaNamespaceKey queueKey = .ok (addOnNamespace, addOnName))
    (hop : op ∈ (sync c w queueKey).ops) :
    opNamespaceInvariant c.clusterName addOnNamespace op := by
  by_cases hdef : queueKey = defaultQueueKey
  · simp only [sync, if_pos hdef] at hop
    rcases hlist : w.addOnList c.clusterName with e | addOns <;>
      rw [hlist] at hop <;> simp at hop <;> subst hop <;> rfl
  · simp only [sync, if_neg hdef, hkey] at hop
    rcases hget : w.addOnGet c.clusterName addOnName with ge | addOn
    · cases ge <;> rw [hget] at hop <;> simp at hop <;> subst hop <;> rfl
    · rw [hget] at hop
      simp at hop
      rcases hop with rfl | hop
      · rfl
      · rcases syncSingle_ops_shape c.clusterName w.now w.leaseGet addOnNamespace addOn
          op hop with rfl | rfl | ⟨st, rfl⟩
        · rfl
        · rfl
        · trivial

/-- C9 witness: in a concrete per-resource reconciliation the lease lookup
addresses the key's namespace. -/
theorem addon_ops_use_cluster_namespace_witness :
    opNamespaceInvariant "cluster1" "ns1" (.leaseGetOp "ns1" "app1") :=
  addon_ops_use_cluster_namespace
    { clusterName := "cluster1", getAddOnConfig := fun _ => .ok ⟨"ns1"⟩ }
    { addOnList := fun _ => .ok [], addOnGet := fun _ _ => .ok ⟨"app1", []⟩,
      leaseGet := fun _ _ => .error .notFound, now := 0 }
    "ns1/app1" "ns1" "app1" (.leaseGetOp "ns1" "app1") rfl (by decide)

/-- C2: at a full resync with one addon whose configuration extraction
succeeds, `sync` succeeds and adds the addon object itself to the work
queue — not a per-resource `namespace/name` string key, which is the only
queue-key shape the per-resource branch of `sync` can consume. -/
theorem resync_enqueues_addon_object :
    sync sampleController sampleResyncWorld defaultQueueKey =
      { outcome := .ok, enqueued := [QueueItem.obj sampleAddOn],
        ops := [.addOnListOp "cluster1"] } := by
  rfl

end AddOnLease
